import Mathlib

/-!
# Verification of the Local_Sensor_Tester telemetry pipeline

Shallow embedding of the telemetry ingestion and orientation-dispatch
pipeline of the Local_Sensor_Tester repository:

* `src/src/webble.ts` — the `WebBLEManager` class: the 80-byte packet
  notification handler (`startNotifications`), the coalescing sample
  aggregator (`scheduleEmitIfReady`) and `handleDisconnect`.
* the main application file — `handleSensorData` (rate meter, device-clock
  delta-time, orientation-mode dispatch), the mode-selection listeners and
  the pure angle normalizer `normalize180`.

JavaScript numbers are modelled as exact values: a finite number is a
rational (`ℚ`), and the non-finite values NaN / +Infinity / -Infinity are
explicit constructors of `JSNum`.  Byte buffers are `List Nat` with bytes
reduced mod 256.
-/

/-- A JavaScript number: either a finite value (modelled exactly as a
rational) or one of the non-finite values. -/
inductive JSNum where
  | finite : ℚ → JSNum
  | nan : JSNum
  | posInf : JSNum
  | negInf : JSNum
deriving DecidableEq

/-- JavaScript's `isFinite`. -/
def JSNum.isFinite : JSNum → Bool
  | .finite _ => true
  | _ => false

/-- Decode 4 bytes as a little-endian IEEE-754 single-precision float
(`DataView.getFloat32(off, true)` semantics): sign/exponent/fraction
fields, with subnormals, infinities and NaN.  Finite values are exact
rationals. -/
def decodeFloat32LE (b0 b1 b2 b3 : Nat) : JSNum :=
  let bits : ℕ := b0 % 256 + 256 * (b1 % 256) + 65536 * (b2 % 256) + 16777216 * (b3 % 256)
  let neg : Bool := bits / 2 ^ 31 % 2 = 1
  let expo : ℕ := bits / 2 ^ 23 % 2 ^ 8
  let frac : ℕ := bits % 2 ^ 23
  let sign : ℚ := if neg then -1 else 1
  if expo = 255 then
    if frac = 0 then (if neg then .negInf else .posInf) else .nan
  else if expo = 0 then
    .finite (sign * (frac : ℚ) / 2 ^ 149)
  else
    .finite (sign * ((2 ^ 23 + frac : ℕ) : ℚ) * (2 : ℚ) ^ ((expo : ℤ) - 150))

/-- `DataView.getFloat32(off, true)` on a byte buffer: reads bytes
`off .. off+3`; a read past the end of the buffer throws (`.error ()`). -/
def getFloat32 (buf : List Nat) (off : Nat) : Except Unit JSNum :=
  match buf[off]?, buf[off + 1]?, buf[off + 2]?, buf[off + 3]? with
  | some a, some b, some c, some d => .ok (decodeFloat32LE a b c d)
  | _, _, _, _ => .error ()

/-- The read loop `for (let i = 0; i < 20; i++) values[i] = dv.getFloat32(i*4, true)`
generalised: read `n` consecutive floats starting at float index `i`.
The first out-of-range read aborts the whole handler (exception). -/
def readRange (buf : List Nat) : Nat → Nat → Except Unit (List JSNum)
  | _, 0 => .ok []
  | i, n + 1 =>
    match getFloat32 buf (4 * i) with
    | .error u => .error u
    | .ok v =>
      match readRange buf (i + 1) n with
      | .error u => .error u
      | .ok rest => .ok (v :: rest)

/-- The 20 float32 values read by the packet notification handler. -/
def readFloats (buf : List Nat) : Except Unit (List JSNum) :=
  readRange buf 0 20

/-- A 3-component vector of JavaScript numbers (`{x, y, z}`). -/
structure Vec3 where
  x : JSNum
  y : JSNum
  z : JSNum
deriving DecidableEq

/-- A roll/pitch/yaw triple of JavaScript numbers. -/
structure Euler where
  roll : JSNum
  pitch : JSNum
  yaw : JSNum
deriving DecidableEq

/-- The `SensorData` packet built by `scheduleEmitIfReady`.  The TypeScript
interface declares every field non-nullable, but the builder uses non-null
assertions (`this.latestGyroInt!` …) which are erased at runtime, so a
field can actually carry `null`; hence `Option` for those fields.  `t` is
`this.latestTimeSec ?? 0`, always a number. -/
structure SensorData where
  accel : Option Vec3
  gyro : Option Vec3
  mag : Option Vec3
  gyroInt : Option Euler
  fusion : Option Euler
  fusionMag : Option Euler
  temperature : Option JSNum
  t : JSNum
deriving DecidableEq

/-- The mutable state of `WebBLEManager` relevant to the pipeline: the
cached latest-value slots, the one-shot `emitScheduled` flag, the cached
device time, whether a GATT connection is held, and the number of flush
microtasks currently queued by `queueMicrotask` (host microtask queue). -/
structure BLEState where
  latestAccel : Option Vec3
  latestGyro : Option Vec3
  latestMag : Option Vec3
  latestGyroInt : Option Euler
  latestFusion : Option Euler
  latestFusionMag : Option Euler
  latestTemp : Option JSNum
  emitScheduled : Bool
  latestTimeSec : Option JSNum
  connected : Bool
  tasksQueued : Nat
deriving DecidableEq

/-- Fresh `WebBLEManager` field initialisers (all slots `null`,
`emitScheduled = false`), just after a successful connect. -/
def initState : BLEState :=
  { latestAccel := none, latestGyro := none, latestMag := none,
    latestGyroInt := none, latestFusion := none, latestFusionMag := none,
    latestTemp := none, emitScheduled := false, latestTimeSec := none,
    connected := true, tasksQueued := 0 }

/-- The mandatory-field readiness test of `scheduleEmitIfReady`:
`!this.latestAccel || !this.latestGyro || !this.latestMag || this.latestTemp === null`
negated. -/
def mandatoryReady (s : BLEState) : Bool :=
  s.latestAccel.isSome && s.latestGyro.isSome && s.latestMag.isSome && s.latestTemp.isSome

/-- The packet built inside the `queueMicrotask` callback of
`scheduleEmitIfReady`: current slot values, with `t = this.latestTimeSec ?? 0`. -/
def buildPacket (s : BLEState) : SensorData :=
  { accel := s.latestAccel, gyro := s.latestGyro, mag := s.latestMag,
    gyroInt := s.latestGyroInt, fusion := s.latestFusion,
    fusionMag := s.latestFusionMag, temperature := s.latestTemp,
    t := s.latestTimeSec.getD (.finite 0) }

/-- `scheduleEmitIfReady` (webble.ts lines 168–188): return if a flush is
already scheduled; return if a mandatory slot is missing; otherwise set
the flag and queue one flush microtask. -/
def scheduleEmitIfReady (s : BLEState) : BLEState :=
  if s.emitScheduled then s
  else if !mandatoryReady s then s
  else { s with emitScheduled := true, tasksQueued := s.tasksQueued + 1 }

/-- The slot assignments of the packet notification handler (webble.ts
lines 155–162) applied to the 20 decoded values: every field-group slot is
overwritten; the time slot stores the decoded value only when it is
finite, else `null`. -/
def applyDecoded (vs : List JSNum) (s : BLEState) : BLEState :=
  let v := fun i => vs.getD i (.finite 0)
  { s with
    latestAccel := some ⟨v 0, v 1, v 2⟩,
    latestGyro := some ⟨v 3, v 4, v 5⟩,
    latestMag := some ⟨v 6, v 7, v 8⟩,
    latestGyroInt := some ⟨v 9, v 10, v 11⟩,
    latestFusion := some ⟨v 12, v 13, v 14⟩,
    latestFusionMag := some ⟨v 15, v 16, v 17⟩,
    latestTemp := some (v 18),
    latestTimeSec := if (v 19).isFinite then some (v 19) else none }

/-- The packet characteristic notification handler (webble.ts lines
149–165).  A buffer too short for one of the 20 reads throws out of the
listener before any slot assignment, leaving the state unchanged;
otherwise all slots are updated and `scheduleEmitIfReady` runs. -/
def onNotify (buf : List Nat) (s : BLEState) : BLEState :=
  match readFloats buf with
  | .error _ => s
  | .ok vs => scheduleEmitIfReady (applyDecoded vs s)

/-- `handleDisconnect` (webble.ts lines 99–112): drops the
server/characteristic handles and nulls the cached field-group slots and
the `emitScheduled` flag before emitting the `disconnected` event.
Note the list of cleared slots in the source does not include
`latestTimeSec`, and an already-queued flush microtask cannot be
cancelled. -/
def handleDisconnect (s : BLEState) : BLEState :=
  { s with connected := false,
           latestAccel := none, latestGyro := none, latestMag := none,
           latestFusion := none, latestFusionMag := none, latestGyroInt := none,
           latestTemp := none, emitScheduled := false }

/-- Run `n` queued flush microtasks: each clears `emitScheduled`, builds a
packet from the current slots and emits it as a `data` event. -/
def drainTasks : Nat → BLEState → BLEState × List SensorData
  | 0, s => (s, [])
  | n + 1, s =>
    let s1 := { s with emitScheduled := false }
    let p := buildPacket s1
    let (s2, ps) := drainTasks n s1
    (s2, p :: ps)

/-- One scheduling turn of the BLE manager: a burst of packet
notifications runs synchronously, then the host drains the microtask
queue; the emitted `data` packets of the turn are returned. -/
def runTurn (s : BLEState) (bufs : List (List Nat)) : BLEState × List SensorData :=
  let s1 := bufs.foldl (fun st b => onNotify b st) s
  drainTasks s1.tasksQueued { s1 with tasksQueued := 0 }

/-- Truncation toward zero of a rational, as used by the JavaScript `%`
operator (`Math.trunc` of the quotient). -/
def truncQ (q : ℚ) : ℤ :=
  if 0 ≤ q then ⌊q⌋ else ⌈q⌉

/-- The JavaScript remainder operator `a % b`: truncated division
remainder, taking the sign of the dividend. -/
def jsRem (a b : ℚ) : ℚ :=
  a - b * (truncQ (a / b) : ℚ)

/-- A modulo that always yields a non-negative remainder (for a positive
divisor): floor-division remainder. -/
def nnMod (a b : ℚ) : ℚ :=
  a - b * (⌊a / b⌋ : ℚ)

/-- `normalize180` (main application file, lines 521–524):
`const x = (deg + 180) % 360; return x < 0 ? x + 360 - 180 : x - 180;`. -/
def normalize180 (deg : ℚ) : ℚ :=
  let x := jsRem (deg + 180) 360
  if x < 0 then x + 360 - 180 else x - 180

/-- Modelled from the spec (§4.5): the reference angle normalizer
`normalize(d) = ((d + 180) mod 360 + 360) mod 360 − 180`, "using a modulo
that always yields a non-negative remainder".  Stated only to be compared
with the source's `normalize180`. -/
def normalizeRefSpec (d : ℚ) : ℚ :=
  nnMod (nnMod (d + 180) 360 + 360) 360 - 180

/-- The device-clock delta-time computation (main application file, lines
439–441): capture the previous anchor, store `isFinite(t) ? t : null` as
the new anchor, and report `dt = prev != null && isFinite(t) ?
max(0, t - prev) : 0`.  Returns `(dt, new anchor)`.  The anchor stores
only finite values, hence `Option ℚ`. -/
def clockStep (prev : Option ℚ) (t : JSNum) : ℚ × Option ℚ :=
  let newPrev : Option ℚ := match t with
    | .finite q => some q
    | _ => none
  let dt : ℚ := match prev, t with
    | some p, .finite q => max 0 (q - p)
    | _, _ => 0
  (dt, newPrev)

/-- The eviction loop of the rate meter (main application file, lines
413–415): `while (length && head < oneSecondAgo) shift()`. -/
def evictOld (oneSecondAgo : ℚ) : List ℚ → List ℚ
  | [] => []
  | h :: tl => if h < oneSecondAgo then evictOld oneSecondAgo tl else h :: tl

/-- The rate-meter update (main application file, lines 408–418):
`nowSec = isFinite(t) ? t : (last timestamp, or 0)`; push `nowSec`; evict
from the head while `head < nowSec - 1`; report the resulting window
length.  Returns `(new window, reported rate)`. -/
def rateStep (timestamps : List ℚ) (t : JSNum) : List ℚ × ℕ :=
  let nowSec : ℚ := match t with
    | .finite q => q
    | _ => (timestamps.getLast?).getD 0
  let pushed := timestamps ++ [nowSec]
  let window := evictOld (nowSec - 1) pushed
  (window, window.length)

/-- The four orientation modes of the application
(`'accel' | 'gyro' | 'fusion' | 'fusionMag'`). -/
inductive Mode where
  | accel : Mode
  | gyro : Mode
  | fusion : Mode
  | fusionMag : Mode
deriving DecidableEq

/-- The application state relevant to the pipeline: the active orientation
mode, the clock anchor `prevDeviceTimeSec`, the rate-meter window
`msgTimestamps`, and whether the 3D model (`this.pcbModel`) is loaded
(the clock/dispatch block runs only inside `if (this.pcbModel)`). -/
structure AppState where
  mode : Mode
  prevDeviceTimeSec : Option ℚ
  msgTimestamps : List ℚ
  hasModel : Bool
deriving DecidableEq

/-- The `mode-gyro` radio-change listener body (main application file,
lines 193–198): switch the mode to `'gyro'` and null the clock anchor
(the smoothing-slider UI effects are outside the pipeline state). -/
def selectGyroMode (s : AppState) : AppState :=
  { s with mode := .gyro, prevDeviceTimeSec := none }

/-- A sensor sample as consumed by `handleSensorData`.  The mandatory
field groups are present (the handler dereferences them unconditionally);
`gyroInt`, `fusion` and `fusionMag` are truthiness-checked in the source
and may be absent. -/
structure SensorIn where
  accel : Vec3
  gyro : Vec3
  mag : Vec3
  gyroInt : Option Euler
  fusion : Option Euler
  fusionMag : Option Euler
  temperature : JSNum
  t : JSNum
deriving DecidableEq

/-- A call forwarded to the orientation consumer (`this.pcbModel`):
`updateOrientationFromAccel(vec, dt)` or
`updateOrientationFromEuler(euler, dt)` (the latter receives whatever
value the field holds, possibly `null` in gyro mode). -/
inductive DispatchCall where
  | fromAccel : Vec3 → ℚ → DispatchCall
  | fromEuler : Option Euler → ℚ → DispatchCall
deriving DecidableEq

/-- `handleSensorData` (main application file, lines 407–519), restricted
to the pipeline state: update the rate-meter window, then — only when the
3D model is present — compute `dt` from the device clock, update the
anchor, and dispatch to the orientation consumer according to the active
mode (fusion / fusionMag samples lacking the field are skipped).  Returns
the new state, the computed `dt` (`none` when the model is absent), the
reported rate, and the dispatch call made. -/
def handleSensorData (s : AppState) (d : SensorIn) :
    AppState × Option ℚ × ℕ × Option DispatchCall :=
  let (window, rate) := rateStep s.msgTimestamps d.t
  if s.hasModel then
    let (dt, newPrev) := clockStep s.prevDeviceTimeSec d.t
    let call : Option DispatchCall :=
      match s.mode with
      | .accel => some (.fromAccel d.accel dt)
      | .gyro => some (.fromEuler d.gyroInt dt)
      | .fusion => match d.fusion with
        | some e => some (.fromEuler (some e) dt)
        | none => none
      | .fusionMag => match d.fusionMag with
        | some e => some (.fromEuler (some e) dt)
        | none => none
    ({ s with msgTimestamps := window, prevDeviceTimeSec := newPrev },
     some dt, rate, call)
  else
    ({ s with msgTimestamps := window }, none, rate, none)

/-- The coalescing-flag discipline: either no flush is scheduled and the
microtask queue is empty, or exactly one flush is queued, the flag is set
and the mandatory slots are all populated. -/
def flagInv (s : BLEState) : Prop :=
  (s.emitScheduled = false ∧ s.tasksQueued = 0) ∨
    (s.emitScheduled = true ∧ s.tasksQueued = 1 ∧ mandatoryReady s = true)

/-- Invariant that the cached device-time slot only ever stores a finite
value (the notification handler guards the store with `isFinite`). -/
def timeFiniteInv (s : BLEState) : Prop :=
  ∀ v, s.latestTimeSec = some v → v.isFinite = true

/-- A populated pre-disconnect manager state: every slot holds a value, a
flush is scheduled, and the cached device time is 5 s. -/
def preDisc : BLEState :=
  { latestAccel := some ⟨.finite 1, .finite 0, .finite 0⟩,
    latestGyro := some ⟨.finite 0, .finite 0, .finite 0⟩,
    latestMag := some ⟨.finite 0, .finite 0, .finite 0⟩,
    latestGyroInt := some ⟨.finite 0, .finite 0, .finite 0⟩,
    latestFusion := some ⟨.finite 0, .finite 0, .finite 0⟩,
    latestFusionMag := some ⟨.finite 0, .finite 0, .finite 0⟩,
    latestTemp := some (.finite 25),
    emitScheduled := true, latestTimeSec := some (.finite 5),
    connected := true, tasksQueued := 1 }

/-- An application state in accel mode with a recent clock anchor of 10 s. -/
def appPre : AppState :=
  { mode := .accel, prevDeviceTimeSec := some 10, msgTimestamps := [],
    hasModel := true }

/-- A well-formed sample whose device time is NaN. -/
def nanSample : SensorIn :=
  { accel := ⟨.finite 0, .finite 0, .finite 0⟩,
    gyro := ⟨.finite 0, .finite 0, .finite 0⟩,
    mag := ⟨.finite 0, .finite 0, .finite 0⟩,
    gyroInt := none, fusion := none, fusionMag := none,
    temperature := .finite 25, t := .nan }

/-- A well-formed sample carrying device time 9.5 s. -/
def sample95 : SensorIn :=
  { nanSample with t := .finite (19 / 2) }

/-- A 20-float value list whose time field (index 19) is NaN. -/
def vsNan : List JSNum :=
  List.replicate 19 (JSNum.finite 0) ++ [JSNum.nan]

/-! ### Helper lemmas about the angle normalizer -/

lemma nnMod_eq_fract (a : ℚ) : nnMod a 360 = 360 * Int.fract (a / 360) := by
  rw [nnMod, ← Int.self_sub_floor, mul_sub, mul_comm (360 : ℚ) (a / 360),
    div_mul_cancel₀ a (by norm_num : (360 : ℚ) ≠ 0)]

lemma nnMod_nonneg (a : ℚ) : 0 ≤ nnMod a 360 := by
  rw [nnMod_eq_fract]
  exact mul_nonneg (by norm_num) (Int.fract_nonneg _)

lemma nnMod_lt (a : ℚ) : nnMod a 360 < 360 := by
  rw [nnMod_eq_fract]
  nlinarith [Int.fract_lt_one (a / 360), Int.fract_nonneg (a / 360)]

lemma nnMod_add_360 (a : ℚ) : nnMod (a + 360) 360 = nnMod a 360 := by
  rw [nnMod_eq_fract, nnMod_eq_fract]
  have h : (a + 360) / 360 = a / 360 + ((1 : ℤ) : ℚ) := by
    rw [add_div]; norm_num
  rw [h, Int.fract_add_int]

lemma nnMod_small (a : ℚ) (h0 : 0 ≤ a) (h1 : a < 360) : nnMod a 360 = a := by
  have hf : Int.fract (a / 360) = a / 360 :=
    Int.fract_eq_self.mpr ⟨by positivity, (div_lt_one (by norm_num : (0 : ℚ) < 360)).mpr h1⟩
  rw [nnMod_eq_fract, hf, mul_comm, div_mul_cancel₀ a (by norm_num : (360 : ℚ) ≠ 0)]

lemma jsRem_of_nonneg (a : ℚ) (h : 0 ≤ a) : jsRem a 360 = nnMod a 360 := by
  have hq : (0 : ℚ) ≤ a / 360 := by positivity
  simp [jsRem, nnMod, truncQ, hq]

lemma jsRem_of_neg (a : ℚ) (h : a < 0) : jsRem a 360 = -nnMod (-a) 360 := by
  have hq : ¬ (0 : ℚ) ≤ a / 360 := by
    rw [not_le]
    exact div_neg_of_neg_of_pos h (by norm_num)
  have hc : ⌈a / 360⌉ = -⌊-a / 360⌋ := by
    rw [show a / 360 = -(-a / 360) by ring, Int.ceil_neg]
  simp only [jsRem, nnMod, truncQ, if_neg hq, hc]
  push_cast
  ring

lemma nnMod_of_neg_zero (a : ℚ) (h : nnMod (-a) 360 = 0) : nnMod a 360 = 0 := by
  rw [nnMod_eq_fract] at h ⊢
  have h1 : Int.fract (-a / 360) = 0 := by
    rcases mul_eq_zero.mp h with h' | h'
    · norm_num at h'
    · exact h'
  have h2 : Int.fract (-(a / 360)) = 0 := by rwa [neg_div] at h1
  rw [Int.fract_neg_eq_zero.mp h2, mul_zero]

lemma nnMod_of_neg_pos (a : ℚ) (h : nnMod (-a) 360 ≠ 0) :
    nnMod a 360 = 360 - nnMod (-a) 360 := by
  rw [nnMod_eq_fract] at h ⊢
  rw [nnMod_eq_fract]
  have h1 : Int.fract (-a / 360) ≠ 0 := by
    intro h'
    exact h (by rw [h', mul_zero])
  have h2 : a / 360 = -(-a / 360) := by ring
  rw [h2, Int.fract_neg h1]
  ring

lemma normalize180_eq_nnMod (d : ℚ) :
    normalize180 d = nnMod (d + 180) 360 - 180 := by
  show (if jsRem (d + 180) 360 < 0 then jsRem (d + 180) 360 + 360 - 180
        else jsRem (d + 180) 360 - 180) = nnMod (d + 180) 360 - 180
  set a := d + 180 with ha
  by_cases hnn : 0 ≤ a
  · have hx : jsRem a 360 = nnMod a 360 := jsRem_of_nonneg a hnn
    have hge : 0 ≤ jsRem a 360 := by rw [hx]; exact nnMod_nonneg a
    rw [if_neg (not_lt.mpr hge), hx]
  · push_neg at hnn
    have hx : jsRem a 360 = -nnMod (-a) 360 := jsRem_of_neg a hnn
    by_cases hz : nnMod (-a) 360 = 0
    · have h0 : jsRem a 360 = 0 := by rw [hx, hz, neg_zero]
      rw [if_neg (by rw [h0]; norm_num), h0, nnMod_of_neg_zero a hz]
    · have hpos : 0 < nnMod (-a) 360 :=
        lt_of_le_of_ne (nnMod_nonneg _) (Ne.symm hz)
      have hlt : jsRem a 360 < 0 := by rw [hx]; linarith
      rw [if_pos hlt, hx, nnMod_of_neg_pos a hz]
      ring

lemma normalizeRefSpec_eq_nnMod (d : ℚ) :
    normalizeRefSpec d = nnMod (d + 180) 360 - 180 := by
  rw [normalizeRefSpec, nnMod_add_360, nnMod_small _ (nnMod_nonneg _) (nnMod_lt _)]

lemma normalize180_eq_refSpec (d : ℚ) : normalize180 d = normalizeRefSpec d := by
  rw [normalize180_eq_nnMod, normalizeRefSpec_eq_nnMod]

lemma normalize180_lb (d : ℚ) : -180 ≤ normalize180 d := by
  rw [normalize180_eq_nnMod]
  linarith [nnMod_nonneg (d + 180)]

lemma normalize180_ub (d : ℚ) : normalize180 d < 180 := by
  rw [normalize180_eq_nnMod]
  linarith [nnMod_lt (d + 180)]

lemma normalize180_fixed (v : ℚ) (h0 : -180 ≤ v) (h1 : v < 180) :
    normalize180 v = v := by
  rw [normalize180_eq_nnMod, nnMod_small (v + 180) (by linarith) (by linarith)]
  ring

lemma normalize180_idem (d : ℚ) :
    normalize180 (normalize180 d) = normalize180 d :=
  normalize180_fixed _ (normalize180_lb d) (normalize180_ub d)

lemma normalize180_periodic (d : ℚ) :
    normalize180 (d + 360) = normalize180 d := by
  rw [normalize180_eq_nnMod, normalize180_eq_nnMod,
    show d + 360 + 180 = d + 180 + 360 by ring, nnMod_add_360]

lemma normalize180_at_190 : normalize180 190 = -170 := by
  rw [normalize180_eq_nnMod, show (190 : ℚ) + 180 = 10 + 360 by norm_num,
    nnMod_add_360, nnMod_small 10 (by norm_num) (by norm_num)]
  norm_num

lemma normalize180_at_neg190 : normalize180 (-190) = 170 := by
  have h : nnMod (-10 : ℚ) 360 = 350 := by
    rw [← nnMod_add_360 (-10), show (-10 : ℚ) + 360 = 350 by norm_num,
      nnMod_small 350 (by norm_num) (by norm_num)]
  rw [normalize180_eq_nnMod, show (-190 : ℚ) + 180 = -10 by norm_num, h]
  norm_num

lemma normalize180_at_0 : normalize180 0 = 0 := by
  rw [normalize180_eq_nnMod, show (0 : ℚ) + 180 = 180 by norm_num,
    nnMod_small 180 (by norm_num) (by norm_num)]
  norm_num

lemma normalize180_at_180 : normalize180 180 = -180 := by
  rw [normalize180_eq_nnMod, show (180 : ℚ) + 180 = 0 + 360 by norm_num,
    nnMod_add_360, nnMod_small 0 (by norm_num) (by norm_num)]
  norm_num

/-! ### Helper lemmas about the packet handler and the aggregator -/

lemma getFloat32_ok_length {buf : List Nat} {off : Nat} {v : JSNum}
    (h : getFloat32 buf off = .ok v) : off + 4 ≤ buf.length := by
  by_contra hlt
  push_neg at hlt
  have h3 : buf[off + 3]? = none := List.getElem?_eq_none_iff.mpr (by omega)
  rcases ha : buf[off]? with _ | a <;>
    rcases hb : buf[off + 1]? with _ | b <;>
      rcases hc : buf[off + 2]? with _ | c <;>
        simp [getFloat32, ha, hb, hc, h3] at h

lemma getFloat32_ok_of_length {buf : List Nat} {off : Nat}
    (h : off + 4 ≤ buf.length) : ∃ v, getFloat32 buf off = .ok v := by
  have ha := List.getElem?_eq_getElem (show off < buf.length by omega)
  have hb := List.getElem?_eq_getElem (show off + 1 < buf.length by omega)
  have hc := List.getElem?_eq_getElem (show off + 2 < buf.length by omega)
  have hd := List.getElem?_eq_getElem (show off + 3 < buf.length by omega)
  exact ⟨_, by rw [getFloat32, ha, hb, hc, hd]⟩

lemma getFloat32_take {buf : List Nat} {off m : Nat} (h : off + 4 ≤ m) :
    getFloat32 (buf.take m) off = getFloat32 buf off := by
  rw [getFloat32, getFloat32,
    List.getElem?_take_of_lt (show off < m by omega),
    List.getElem?_take_of_lt (show off + 1 < m by omega),
    List.getElem?_take_of_lt (show off + 2 < m by omega),
    List.getElem?_take_of_lt (show off + 3 < m by omega)]

lemma readRange_ok_length {buf : List Nat} :
    ∀ {n i : Nat} {vs : List JSNum},
      readRange buf i (n + 1) = .ok vs → 4 * (i + n) + 4 ≤ buf.length := by
  intro n
  induction n with
  | zero =>
    intro i vs h
    rcases hg : getFloat32 buf (4 * i) with u | v
    · rw [readRange, hg] at h
      exact absurd h (by simp)
    · have := getFloat32_ok_length hg
      omega
  | succ m ih =>
    intro i vs h
    rcases hg : getFloat32 buf (4 * i) with u | v
    · rw [readRange, hg] at h
      exact absurd h (by simp)
    · rw [readRange, hg] at h
      rcases hr : readRange buf (i + 1) (m + 1) with u | ws
      · rw [hr] at h
        exact absurd h (by simp)
      · have := ih hr
        omega

lemma readRange_take {buf : List Nat} {m : Nat} :
    ∀ {n i : Nat}, 4 * (i + n) ≤ m →
      readRange (buf.take m) i n = readRange buf i n := by
  intro n
  induction n with
  | zero => intro i _; rfl
  | succ k ih =>
    intro i h
    rw [readRange, readRange, getFloat32_take (show 4 * i + 4 ≤ m by omega),
      ih (show 4 * ((i + 1) + k) ≤ m by omega)]

lemma readFloats_short {buf : List Nat} (h : buf.length < 80) :
    readFloats buf = .error () := by
  rcases hr : readFloats buf with u | vs
  · rfl
  · have := readRange_ok_length (n := 19) (i := 0) hr
    omega

lemma readFloats_ok_of_length {buf : List Nat} (h : 80 ≤ buf.length) :
    ∃ vs, readFloats buf = .ok vs := by
  have hgen : ∀ (n i : Nat), 4 * (i + n) ≤ buf.length →
      ∃ vs, readRange buf i n = .ok vs := by
    intro n
    induction n with
    | zero => intro i _; exact ⟨[], rfl⟩
    | succ k ih =>
      intro i hle
      obtain ⟨v, hv⟩ := getFloat32_ok_of_length (show 4 * i + 4 ≤ buf.length by omega)
      obtain ⟨ws, hws⟩ := ih (i + 1) (by omega)
      exact ⟨v :: ws, by rw [readRange, hv, hws]⟩
  exact hgen 20 0 (by omega)

lemma readFloats_take {buf : List Nat} (h : 80 ≤ buf.length) :
    readFloats (buf.take 80) = readFloats buf :=
  readRange_take (by omega)

lemma mandatoryReady_applyDecoded (vs : List JSNum) (s : BLEState) :
    mandatoryReady (applyDecoded vs s) = true := by
  simp [mandatoryReady, applyDecoded]

lemma flagInv_onNotify {s : BLEState} (h : flagInv s) (buf : List Nat) :
    flagInv (onNotify buf s) := by
  rw [onNotify]
  rcases hr : readFloats buf with u | vs
  · exact h
  · simp only [scheduleEmitIfReady]
    by_cases hf : (applyDecoded vs s).emitScheduled
    · rw [if_pos hf]
      rcases h with ⟨h1, _⟩ | ⟨h1, h2, _⟩
      · exact absurd hf (by simp [applyDecoded, h1])
      · exact Or.inr ⟨hf, by simpa [applyDecoded] using h2,
          mandatoryReady_applyDecoded vs s⟩
    · rw [if_neg hf, if_neg (by simp [mandatoryReady_applyDecoded])]
      rcases h with ⟨_, h2⟩ | ⟨h1, _, _⟩
      · exact Or.inr ⟨rfl, by simp [applyDecoded, h2],
          by simp [mandatoryReady, applyDecoded]⟩
      · exact absurd h1 (by simpa [applyDecoded] using hf)

lemma flagInv_foldl {s : BLEState} (h : flagInv s) (bufs : List (List Nat)) :
    flagInv (bufs.foldl (fun st b => onNotify b st) s) := by
  induction bufs generalizing s with
  | nil => exact h
  | cons b bs ih => exact ih (flagInv_onNotify h b)

lemma drainTasks_length (n : Nat) (s : BLEState) :
    (drainTasks n s).2.length = n := by
  induction n generalizing s with
  | zero => rfl
  | succ k ih => simp [drainTasks, ih]

/-! ### Further helper lemmas -/

lemma evictOld_eq_dropWhile (c : ℚ) (l : List ℚ) :
    evictOld c l = l.dropWhile (fun h => decide (h < c)) := by
  induction l with
  | nil => rfl
  | cons h tl ih =>
    by_cases hc : h < c
    · simp [evictOld, List.dropWhile, hc, ih]
    · simp [evictOld, List.dropWhile, hc]

lemma latestTimeSec_scheduleEmit (s : BLEState) :
    (scheduleEmitIfReady s).latestTimeSec = s.latestTimeSec := by
  rw [scheduleEmitIfReady]
  split_ifs <;> rfl

lemma latestTimeSec_applyDecoded (vs : List JSNum) (s : BLEState) :
    (applyDecoded vs s).latestTimeSec =
      if (vs.getD 19 (.finite 0)).isFinite then some (vs.getD 19 (.finite 0))
      else none := rfl

/-! ### Claim theorems -/

/-- C1 (counterexample): an 84-byte buffer has length ≠ 80, yet the packet
handler accepts it — the accel slot goes from empty to populated and an
emission is scheduled — refuting "for every buffer whose length is not
exactly 80 bytes, no sample is produced and no cached slot is modified". -/
theorem C1_counterexample :
    (List.replicate 84 0).length ≠ 80 ∧
    (onNotify (List.replicate 84 0) initState).latestAccel.isSome = true ∧
    initState.latestAccel.isSome = false ∧
    (onNotify (List.replicate 84 0) initState).emitScheduled = true := by
  refine ⟨by decide, rfl, rfl, rfl⟩

/-- C1 (amended): a buffer shorter than 80 bytes makes the decode throw
before any slot assignment — no sample, no state change; a buffer of 80
bytes or more is accepted, is decoded exactly as its first 80 bytes, and
populates every mandatory slot. -/
theorem C1_length_dichotomy (buf : List Nat) (s : BLEState) :
    (buf.length < 80 → onNotify buf s = s) ∧
    (80 ≤ buf.length →
      onNotify buf s = onNotify (buf.take 80) s ∧
      mandatoryReady (onNotify buf s) = true) := by
  constructor
  · intro h
    rw [onNotify, readFloats_short h]
  · intro h
    constructor
    · rw [onNotify, onNotify, readFloats_take h]
    · obtain ⟨vs, hvs⟩ := readFloats_ok_of_length h
      rw [onNotify, hvs]
      simp only [scheduleEmitIfReady]
      split_ifs <;> simp [mandatoryReady, applyDecoded]

/-- C1 (witness): a 40-byte buffer is dropped with no state change; an
84-byte buffer is decoded as its 80-byte prefix and fills the mandatory
slots. -/
theorem C1_length_dichotomy_witness :
    ((List.replicate 40 0).length < 80 ∧
      onNotify (List.replicate 40 0) initState = initState) ∧
    (80 ≤ (List.replicate 84 0).length ∧
      onNotify (List.replicate 84 0) initState =
        onNotify ((List.replicate 84 0).take 80) initState ∧
      mandatoryReady (onNotify (List.replicate 84 0) initState) = true) := by
  constructor
  · exact ⟨by decide,
      (C1_length_dichotomy (List.replicate 40 0) initState).1 (by decide)⟩
  · have h := (C1_length_dichotomy (List.replicate 84 0) initState).2 (by decide)
    exact ⟨by decide, h.1, h.2⟩

/-- C2 (code bug): `handleDisconnect` clears the pending-emission flag and
every cached field-group slot, but it does not clear the device-time slot
`latestTimeSec` — on a populated pre-disconnect state the cached time 5 s
survives the disconnect, contradicting "clears … every cached slot
(including the device-time slot)". -/
theorem C2_disconnect_keeps_time_slot :
    (∀ s : BLEState, (handleDisconnect s).latestTimeSec = s.latestTimeSec) ∧
    (handleDisconnect preDisc).latestTimeSec = some (.finite 5) ∧
    (handleDisconnect preDisc).emitScheduled = false ∧
    (handleDisconnect preDisc).latestAccel = none ∧
    (handleDisconnect preDisc).latestGyro = none ∧
    (handleDisconnect preDisc).latestMag = none ∧
    (handleDisconnect preDisc).latestGyroInt = none ∧
    (handleDisconnect preDisc).latestFusion = none ∧
    (handleDisconnect preDisc).latestFusionMag = none ∧
    (handleDisconnect preDisc).latestTemp = none :=
  ⟨fun _ => rfl, rfl, rfl, rfl, rfl, rfl, rfl, rfl, rfl, rfl⟩

/-- C3 (counterexample): the normalizer maps 180 to −180, not to 180,
refuting both the claimed range (−180, 180] and the claimed value at 180. -/
theorem C3_counterexample :
    normalize180 180 = -180 ∧ ((-180 : ℚ) ≠ 180) :=
  ⟨normalize180_at_180, by norm_num⟩

/-- C3 (amended): the angle normalizer maps every finite input into the
half-open range [−180, 180); in particular normalize(180) = −180. -/
theorem C3_range :
    (∀ d : ℚ, -180 ≤ normalize180 d ∧ normalize180 d < 180) ∧
    normalize180 180 = -180 :=
  ⟨fun d => ⟨normalize180_lb d, normalize180_ub d⟩, normalize180_at_180⟩

/-- C4 (counterexample): with anchor 10 and a NaN device time the code
reports dt = 0 but sets the anchor to null — it does not leave the anchor
unchanged. -/
theorem C4_counterexample :
    (handleSensorData appPre nanSample).1.prevDeviceTimeSec = none ∧
    appPre.prevDeviceTimeSec = some 10 ∧
    (handleSensorData appPre nanSample).1.prevDeviceTimeSec ≠
      appPre.prevDeviceTimeSec ∧
    (handleSensorData appPre nanSample).2.1 = some 0 := by
  refine ⟨rfl, rfl, by simp [handleSensorData, appPre, nanSample, clockStep, rateStep], rfl⟩

/-- C4 (amended): when the sample's device time is non-finite, the clock
code reports dt = 0 and sets the anchor to null (rather than leaving it
unchanged). -/
theorem C4_nonfinite_time (s : AppState) (d : SensorIn)
    (hm : s.hasModel = true) (ht : d.t.isFinite = false) :
    (handleSensorData s d).2.1 = some 0 ∧
    (handleSensorData s d).1.prevDeviceTimeSec = none := by
  cases htv : d.t with
  | finite q => rw [htv] at ht; simp [JSNum.isFinite] at ht
  | nan =>
    cases hp : s.prevDeviceTimeSec <;>
      simp [handleSensorData, clockStep, htv, hm, hp]
  | posInf =>
    cases hp : s.prevDeviceTimeSec <;>
      simp [handleSensorData, clockStep, htv, hm, hp]
  | negInf =>
    cases hp : s.prevDeviceTimeSec <;>
      simp [handleSensorData, clockStep, htv, hm, hp]

/-- C4 (witness): the amended behaviour at the concrete anchor-10 /
NaN-time input. -/
theorem C4_nonfinite_time_witness :
    appPre.hasModel = true ∧ nanSample.t.isFinite = false ∧
    (handleSensorData appPre nanSample).2.1 = some 0 ∧
    (handleSensorData appPre nanSample).1.prevDeviceTimeSec = none := by
  have h := C4_nonfinite_time appPre nanSample rfl rfl
  exact ⟨rfl, rfl, h.1, h.2⟩

/-- C5: within one scheduling turn, starting with no flush scheduled and
an empty microtask queue, at most one `SensorData` packet is emitted
however many notifications arrive, and none is emitted while a mandatory
slot (accel, gyro, mag, temperature) is still unset. -/
theorem C5_coalesced_emission (s : BLEState) (bufs : List (List Nat))
    (hf : s.emitScheduled = false) (hq : s.tasksQueued = 0) :
    (runTurn s bufs).2.length ≤ 1 ∧
    (mandatoryReady (bufs.foldl (fun st b => onNotify b st) s) = false →
      (runTurn s bufs).2 = []) := by
  have hinv : flagInv (bufs.foldl (fun st b => onNotify b st) s) :=
    flagInv_foldl (Or.inl ⟨hf, hq⟩) bufs
  constructor
  · show (drainTasks (bufs.foldl (fun st b => onNotify b st) s).tasksQueued
      { bufs.foldl (fun st b => onNotify b st) s with tasksQueued := 0 }).2.length ≤ 1
    rw [drainTasks_length]
    rcases hinv with ⟨_, h2⟩ | ⟨_, h2, _⟩ <;> omega
  · intro hnr
    show (drainTasks (bufs.foldl (fun st b => onNotify b st) s).tasksQueued
      { bufs.foldl (fun st b => onNotify b st) s with tasksQueued := 0 }).2 = []
    rcases hinv with ⟨_, h2⟩ | ⟨_, _, h3⟩
    · rw [h2]; rfl
    · rw [h3] at hnr; cases hnr

/-- C5 (witness): five valid zero-filled packets in one turn produce
exactly one emission. -/
theorem C5_coalesced_emission_witness :
    initState.emitScheduled = false ∧ initState.tasksQueued = 0 ∧
    (runTurn initState (List.replicate 5 (List.replicate 80 0))).2.length ≤ 1 ∧
    (runTurn initState (List.replicate 5 (List.replicate 80 0))).2.length = 1 := by
  have h := C5_coalesced_emission initState
    (List.replicate 5 (List.replicate 80 0)) rfl rfl
  exact ⟨rfl, rfl, h.1, by rfl⟩

/-- C6: with a non-null anchor p and a finite device time q, the clock
code reports dt = max(0, q − p) — never negative — and moves the anchor
to q. -/
theorem C6_clock_clamp (s : AppState) (d : SensorIn) (p q : ℚ)
    (hm : s.hasModel = true) (hp : s.prevDeviceTimeSec = some p)
    (ht : d.t = .finite q) :
    (handleSensorData s d).2.1 = some (max 0 (q - p)) ∧
    (0 : ℚ) ≤ max 0 (q - p) ∧
    (handleSensorData s d).1.prevDeviceTimeSec = some q := by
  refine ⟨?_, le_max_left 0 (q - p), ?_⟩ <;>
    simp [handleSensorData, clockStep, hm, hp, ht]

/-- C6 (witness): anchor 10, next time 9.5 — dt is 0 and the anchor
becomes 9.5. -/
theorem C6_clock_clamp_witness :
    appPre.hasModel = true ∧ appPre.prevDeviceTimeSec = some 10 ∧
    sample95.t = JSNum.finite (19 / 2) ∧
    (handleSensorData appPre sample95).2.1 = some 0 ∧
    (handleSensorData appPre sample95).1.prevDeviceTimeSec = some (19 / 2) := by
  have h := C6_clock_clamp appPre sample95 10 (19 / 2) rfl rfl rfl
  refine ⟨rfl, rfl, rfl, ?_, h.2.2⟩
  rw [h.1]
  norm_num

/-- C7: the source normalizer coincides with the spec's reference formula
((d+180) mod 360 + 360) mod 360 − 180 (non-negative modulo), is
idempotent and 360-periodic on all finite inputs, and takes the values
−170, 170 and 0 at 190, −190 and 0. -/
theorem C7_normalizer_properties :
    (∀ d : ℚ, normalize180 d = normalizeRefSpec d) ∧
    (∀ d : ℚ, normalize180 (normalize180 d) = normalize180 d) ∧
    (∀ d : ℚ, normalize180 (d + 360) = normalize180 d) ∧
    normalize180 190 = -170 ∧ normalize180 (-190) = 170 ∧
    normalize180 0 = 0 :=
  ⟨normalize180_eq_refSpec, normalize180_idem, normalize180_periodic,
    normalize180_at_190, normalize180_at_neg190, normalize180_at_0⟩

/-- C8: on a finite sample time q the rate meter appends q, evicts from
the head exactly while the head is below q − 1 (the eviction loop is
`dropWhile`), and reports the window length; fed 0.0 … 1.2 in steps of
0.2, the final reported window has 6 entries. -/
theorem C8_rate_meter :
    (∀ (c : ℚ) (l : List ℚ),
      evictOld c l = l.dropWhile (fun h => decide (h < c))) ∧
    (∀ (ts : List ℚ) (q : ℚ),
      rateStep ts (.finite q) =
        (evictOld (q - 1) (ts ++ [q]), (evictOld (q - 1) (ts ++ [q])).length)) ∧
    (List.foldl (fun w t => (rateStep w (.finite t)).1) []
        [0, 1/5, 2/5, 3/5, 4/5, 1, 6/5]).length = 6 := by
  refine ⟨evictOld_eq_dropWhile, fun ts q => rfl, ?_⟩
  norm_num [rateStep, evictOld]

/-- C9: switching into gyro-integrated mode nulls the clock anchor, so the
dt computed for the first sample processed afterwards is 0, whatever the
previous anchor and whatever the sample's device time. -/
theorem C9_gyro_mode_resets_dt (s : AppState) (d : SensorIn)
    (hm : s.hasModel = true) :
    (selectGyroMode s).prevDeviceTimeSec = none ∧
    (handleSensorData (selectGyroMode s) d).2.1 = some 0 := by
  refine ⟨rfl, ?_⟩
  cases ht : d.t <;>
    simp [handleSensorData, clockStep, selectGyroMode, hm, ht]

/-- C9 (witness): from the accel-mode state with a recent anchor of 10 s,
switching to gyro mode forces the next dt to 0. -/
theorem C9_gyro_mode_resets_dt_witness :
    appPre.hasModel = true ∧
    (selectGyroMode appPre).prevDeviceTimeSec = none ∧
    (handleSensorData (selectGyroMode appPre) nanSample).2.1 = some 0 := by
  have h := C9_gyro_mode_resets_dt appPre nanSample rfl
  exact ⟨rfl, h.1, h.2⟩

/-- C10: the cached device-time slot only ever holds finite values — true
initially and preserved by every notification and by disconnect — so every
packet the flush builds carries a finite t; and when the decoded time
field (index 19) is non-finite the slot is set to null and the built
packet substitutes t = 0. -/
theorem C10_emitted_time_finite :
    timeFiniteInv initState ∧
    (∀ (s : BLEState) (buf : List Nat),
      timeFiniteInv s → timeFiniteInv (onNotify buf s)) ∧
    (∀ s : BLEState, timeFiniteInv s → timeFiniteInv (handleDisconnect s)) ∧
    (∀ s : BLEState, timeFiniteInv s → (buildPacket s).t.isFinite = true) ∧
    (∀ (s : BLEState) (vs : List JSNum),
      (vs.getD 19 (.finite 0)).isFinite = false →
      (applyDecoded vs s).latestTimeSec = none ∧
      (buildPacket (applyDecoded vs s)).t = .finite 0) := by
  refine ⟨?_, ?_, ?_, ?_, ?_⟩
  · intro v h
    simp [initState] at h
  · intro s buf hs
    rw [onNotify]
    rcases hr : readFloats buf with u | vs
    · exact hs
    · intro v hv
      rw [latestTimeSec_scheduleEmit, latestTimeSec_applyDecoded] at hv
      by_cases hfin : (vs.getD 19 (.finite 0)).isFinite
      · rw [if_pos hfin] at hv
        rwa [Option.some_inj.mp hv] at hfin
      · rw [if_neg hfin] at hv
        cases hv
  · intro s hs v hv
    exact hs v hv
  · intro s hs
    rcases hv : s.latestTimeSec with _ | v
    · rw [buildPacket, hv]
      rfl
    · rw [buildPacket, hv]
      exact hs v hv
  · intro s vs h
    constructor
    · rw [latestTimeSec_applyDecoded, if_neg (by rw [Bool.not_eq_true]; exact h)]
    · rw [buildPacket, latestTimeSec_applyDecoded,
        if_neg (by rw [Bool.not_eq_true]; exact h)]
      rfl

/-- C10 (witness): bytes 0x7FC00000 decode to NaN; a value list with NaN
at index 19 nulls the time slot and the built packet carries t = 0. -/
theorem C10_emitted_time_finite_witness :
    decodeFloat32LE 0 0 192 127 = JSNum.nan ∧
    (vsNan.getD 19 (.finite 0)).isFinite = false ∧
    (applyDecoded vsNan initState).latestTimeSec = none ∧
    (buildPacket (applyDecoded vsNan initState)).t = .finite 0 := by
  have h := C10_emitted_time_finite.2.2.2.2 initState vsNan rfl
  exact ⟨rfl, rfl, h.1, h.2⟩
